import Mathlib

/-!
# Verification of the techbankai matching-and-ranking engine specification

This file embeds the data model and operations of the techbankai JD-matching
system in Lean 4 and proves the specified properties about them.

Two groups of definitions:

* `TechBank.Core`: the two-phase scoring pipeline (TraditionalScorer,
  ScoringOrchestrator, composite scoring, fallback, ResultStore, and the
  Phase-2 concurrency limiter).  The backend implementation itself is not part
  of the available sources (only its workflow documentation and the frontend
  are), so each definition here is modelled from the specification text and
  carries a `Modelled from the spec:` doc comment.

* `TechBank.Frontend`: shallow embeddings of the admin JD-search component
  (`SearchUsingJD.jsx`): the file-selection handler, the analyze-request
  builder and the location filter over returned matches, translated directly
  from the JSX source.

Scores are modelled as rationals (`ℚ`); JS / Python strings as `String`
compared through their character lists.
-/

namespace TechBank

open List

/-- Lower-cased character list of a string; used for the case-insensitive
substring checks both in the core keyword scorer and in the frontend
location filter (`.toLowerCase().includes(...)` in JS). -/
def lowerChars (s : String) : List Char :=
  s.toList.map Char.toLower

/-- Case-insensitive containment check: `needle` occurs as a contiguous
substring of `hay`, ignoring case.  Models JS
`hay.toLowerCase().includes(needle.toLowerCase())` and the spec's
"found as substrings …, case-insensitively". -/
def containsCI (hay needle : String) : Bool :=
  decide (lowerChars needle <:+: lowerChars hay)

namespace Core

/-- Modelled from the spec: job level enum `{entry, mid, senior}` (§3,
RequirementsModel). -/
inductive Level where
  | entry
  | mid
  | senior
deriving DecidableEq

/-- Modelled from the spec: the textual form of a level, used as a keyword in
the keyword score (§4.1 "requirement keywords (skills + level + education
terms)"). -/
def Level.text : Level → String
  | .entry => "entry"
  | .mid => "mid"
  | .senior => "senior"

/-- Modelled from the spec: normalized representation of a parsed JD (§3).
Skill sets are modelled as lists of strings. -/
structure RequirementsModel where
  requiredSkills : List String
  preferredSkills : List String
  minExperienceYears : ℚ
  educationText : String
  level : Level

/-- Modelled from the spec: immutable candidate snapshot (§3). -/
structure CandidateProfile where
  id : ℕ
  skills : List String
  experienceYears : ℚ
  roleText : String
  rawText : String
  locationText : String
  sourceType : String

/-- Modelled from the spec: per-candidate output of the TraditionalScorer
(§3). -/
structure TraditionalScore where
  candidateId : ℕ
  skillOverlapScore : ℚ
  experienceScore : ℚ
  keywordScore : ℚ
  compositePreliminary : ℚ

/-- Number of skills of `req` that the candidate's skill list contains. -/
def overlapCount (candSkills reqSkills : List String) : ℕ :=
  (reqSkills.filter (fun s => candSkills.contains s)).length

/-- Modelled from the spec: the penalty applied to `skillOverlapScore` when
`required` is empty and the candidate has zero overlap with `preferred`
(§4.1).  The spec fixes the rule but not the penalty's magnitude; it is fixed
here at 50. -/
def noOverlapPenalty : ℚ := 50

/-- Modelled from the spec (§4.1): `skillOverlapScore` = 100 × (overlap
weighted 2:1 required:preferred) / (|required|×2 + |preferred|), clamped to
100; if `required` is empty, 100 minus a penalty only if the candidate has
zero skills overlap with `preferred`. -/
def skillOverlapScore (req : RequirementsModel) (cand : CandidateProfile) : ℚ :=
  if req.requiredSkills = [] then
    if overlapCount cand.skills req.preferredSkills = 0 then 100 - noOverlapPenalty else 100
  else
    min 100 (100 * (2 * (overlapCount cand.skills req.requiredSkills : ℚ) +
        (overlapCount cand.skills req.preferredSkills : ℚ)) /
      (2 * (req.requiredSkills.length : ℚ) + (req.preferredSkills.length : ℚ)))

/-- Modelled from the spec (§4.1): `experienceScore` = 100 if
`candidate.experienceYears ≥ requirements.minExperienceYears`; otherwise the
linear ramp `100 × candidate.experienceYears / minExperienceYears`, with
`minExperienceYears = 0` treated as 100. -/
def experienceScore (req : RequirementsModel) (cand : CandidateProfile) : ℚ :=
  if req.minExperienceYears ≤ cand.experienceYears then 100
  else if req.minExperienceYears = 0 then 100
  else 100 * cand.experienceYears / req.minExperienceYears

/-- Modelled from the spec (§4.1): the requirement keywords — skills, the
level term and the education text. -/
def keywords (req : RequirementsModel) : List String :=
  req.requiredSkills ++ req.preferredSkills ++ [req.level.text, req.educationText]

/-- A keyword is found if it occurs case-insensitively as a substring of the
candidate's raw resume text or role text (§4.1). -/
def keywordHit (cand : CandidateProfile) (k : String) : Bool :=
  containsCI cand.rawText k || containsCI cand.roleText k

/-- Modelled from the spec (§4.1): fraction of requirement keywords found in
the candidate's text, × 100. -/
def keywordScore (req : RequirementsModel) (cand : CandidateProfile) : ℚ :=
  100 * (((keywords req).filter (keywordHit cand)).length : ℚ) / ((keywords req).length : ℚ)

/-- Modelled from the spec (§4.1): the TraditionalScorer.
`compositePreliminary = 0.5×skillOverlapScore + 0.3×experienceScore +
0.2×keywordScore`.  A pure function of its two arguments. -/
def score (req : RequirementsModel) (cand : CandidateProfile) : TraditionalScore :=
  { candidateId := cand.id
    skillOverlapScore := skillOverlapScore req cand
    experienceScore := experienceScore req cand
    keywordScore := keywordScore req cand
    compositePreliminary := 5/10 * skillOverlapScore req cand +
      3/10 * experienceScore req cand + 2/10 * keywordScore req cand }

/-- Modelled from the spec: the six named factor scores (§3). -/
structure FactorScores where
  skillEvidence : ℚ
  execution : ℚ
  complexity : ℚ
  learningAgility : ℚ
  domainContext : ℚ
  communication : ℚ

/-- All six factor scores lie in `[0, 100]` (§3). -/
def FactorScores.InRange (fs : FactorScores) : Prop :=
  0 ≤ fs.skillEvidence ∧ fs.skillEvidence ≤ 100 ∧
  0 ≤ fs.execution ∧ fs.execution ≤ 100 ∧
  0 ≤ fs.complexity ∧ fs.complexity ≤ 100 ∧
  0 ≤ fs.learningAgility ∧ fs.learningAgility ≤ 100 ∧
  0 ≤ fs.domainContext ∧ fs.domainContext ≤ 100 ∧
  0 ≤ fs.communication ∧ fs.communication ≤ 100

/-- Modelled from the spec (§4.3): the fixed factor weights
(0.35 / 0.25 / 0.15 / 0.10 / 0.10 / 0.05, total 1.0) applied to the six
factor scores. -/
def weightedSum (fs : FactorScores) : ℚ :=
  35/100 * fs.skillEvidence + 25/100 * fs.execution + 15/100 * fs.complexity +
    10/100 * fs.learningAgility + 10/100 * fs.domainContext + 5/100 * fs.communication

/-- Round a rational to the nearest integer, halves to the even neighbour
(banker's rounding), as required by §4.3. -/
def roundHalfEven (q : ℚ) : ℤ :=
  if q - ⌊q⌋ < 1/2 then ⌊q⌋
  else if 1/2 < q - ⌊q⌋ then ⌊q⌋ + 1
  else if ⌊q⌋ % 2 = 0 then ⌊q⌋ else ⌊q⌋ + 1

/-- Modelled from the spec (§4.3): rounding to one decimal place using
round-half-to-even. -/
def round1 (q : ℚ) : ℚ :=
  (roundHalfEven (10 * q) : ℚ) / 10

/-- Modelled from the spec (§4.3): `universalFitScore = Σ(weight_i ×
factorScore_i)`, rounded to one decimal place using round-half-to-even. -/
def universalFitScore (fs : FactorScores) : ℚ :=
  round1 (weightedSum fs)

/-- Modelled from the spec (§4.3): the deterministic fallback factor scores
synthesized from a `TraditionalScore` when the SemanticScorer fails after the
retry budget is exhausted. -/
def fallbackScores (t : TraditionalScore) : FactorScores :=
  { skillEvidence := t.skillOverlapScore
    execution := t.compositePreliminary
    complexity := t.compositePreliminary * (8/10)
    learningAgility := 50
    domainContext := t.keywordScore
    communication := 50 }

/-- Modelled from the spec: per-(run, candidate) match record (§3). -/
structure MatchResult where
  runId : ℕ
  candidateId : ℕ
  factorScores : FactorScores
  universalFitScore : ℚ
  matchedSkills : List String
  missingSkills : List String
  explanation : String
  scoredAt : ℕ
  usedFallback : Bool

/-- Modelled from the spec (§6): the resolved outcome, per candidate id, of
the SemanticScorer call including its retry loop — `some fs` when a call
eventually returned validated factor scores, `none` when the retry budget was
exhausted by transient failures or the failure was permanent (§4.4), in which
case the orchestrator falls back (§4.3). -/
def Oracle : Type := ℕ → Option FactorScores

/-- Modelled from the spec (§4.2 step 4, §4.3): merge one candidate's Phase-1
and Phase-2 outcomes into a `MatchResult`; on SemanticScorer failure the
factor scores are the deterministic fallback and `usedFallback` is set. -/
def buildResult (runId : ℕ) (req : RequirementsModel) (oracle : Oracle)
    (cand : CandidateProfile) : MatchResult :=
  let t := score req cand
  let outcome := match oracle cand.id with
    | some fs => (fs, false)
    | none => (fallbackScores t, true)
  { runId := runId
    candidateId := cand.id
    factorScores := outcome.1
    universalFitScore := universalFitScore outcome.1
    matchedSkills := (req.requiredSkills ++ req.preferredSkills).filter
      (fun s => cand.skills.contains s)
    missingSkills := (req.requiredSkills ++ req.preferredSkills).filter
      (fun s => !cand.skills.contains s)
    explanation := ""
    scoredAt := 0
    usedFallback := outcome.2 }

/-- A match result paired with its Phase-1 `compositePreliminary`, which the
orchestrator keeps as the tie-break seed for the final sort (§4.2 steps 2
and 5). -/
structure Scored where
  result : MatchResult
  prelim : ℚ

/-- Modelled from the spec (§4.2): a candidate's scored record entering the
merge step. -/
def buildScored (runId : ℕ) (req : RequirementsModel) (oracle : Oracle)
    (cand : CandidateProfile) : Scored :=
  { result := buildResult runId req oracle cand
    prelim := (score req cand).compositePreliminary }

/-- The ranking key of §4.2 step 5: `universalFitScore` descending, then
`compositePreliminary` descending, then `candidateId` ascending — encoded
lexicographically with negated scores so that the ordinary lexicographic `≤`
realizes the required order. -/
def rankKey (s : Scored) : Lex (ℚ × Lex (ℚ × ℕ)) :=
  toLex (-(s.result.universalFitScore), toLex (-(s.prelim), s.result.candidateId))

/-- The total ranking order on scored records (§4.2 step 5). -/
def rankLE (a b : Scored) : Prop :=
  rankKey a ≤ rankKey b

instance : DecidableRel rankLE :=
  fun a b => inferInstanceAs (Decidable (rankKey a ≤ rankKey b))

instance : IsTotal Scored rankLE :=
  ⟨fun a b => le_total (rankKey a) (rankKey b)⟩

instance : IsTrans Scored rankLE :=
  ⟨fun _ _ _ h₁ h₂ => le_trans h₁ h₂⟩

/-- Modelled from the spec (§4.1, §4.2 step 2): the Phase-1 survivors —
candidates whose `compositePreliminary` is not below `minScoreThreshold`;
the others are excluded from Phase 2 and never receive a MatchResult. -/
def survivors (req : RequirementsModel) (pool : List CandidateProfile)
    (minScoreThreshold : ℚ) : List CandidateProfile :=
  pool.filter (fun c => decide (minScoreThreshold ≤ (score req c).compositePreliminary))

/-- Modelled from the spec (§4.2 step 5): the fully collected Phase-2 results
of the survivors, sorted by the deterministic ranking order. -/
def runRanked (runId : ℕ) (req : RequirementsModel) (pool : List CandidateProfile)
    (minScoreThreshold : ℚ) (oracle : Oracle) : List Scored :=
  List.insertionSort rankLE ((survivors req pool minScoreThreshold).map
    (buildScored runId req oracle))

/-- Modelled from the spec (§4.2): the orchestrator's run.  The first
component is the persisted list (a MatchResult for **every** Phase-1
survivor, ranked); the second is the list returned to the caller — the
persisted ranking truncated to `topN` (§4.2 step 6). -/
def runMatch (runId : ℕ) (req : RequirementsModel) (pool : List CandidateProfile)
    (minScoreThreshold : ℚ) (topN : ℕ) (oracle : Oracle) :
    List MatchResult × List MatchResult :=
  let persisted := (runRanked runId req pool minScoreThreshold oracle).map
    (fun s => s.result)
  (persisted, persisted.take topN)

/-- Modelled from the spec (§5): the same merge applied to the Phase-2
results in the order their calls completed (`arrival`); used to state that
completion order has no effect on the final output. -/
def runMatchArrival (runId : ℕ) (req : RequirementsModel)
    (arrival : List CandidateProfile) (topN : ℕ) (oracle : Oracle) :
    List MatchResult × List MatchResult :=
  let persisted := (List.insertionSort rankLE (arrival.map
    (buildScored runId req oracle))).map (fun s => s.result)
  (persisted, persisted.take topN)

/-- Modelled from the spec (§4.2 step 3, §5): the observable counters of the
Phase-2 bounded worker pool — candidates not yet dispatched, SemanticScorer
calls currently in flight, and completed candidates. -/
structure SemState where
  pending : ℕ
  inFlight : ℕ
  done : ℕ
deriving DecidableEq

/-- Modelled from the spec (§4.2 step 3, §4.4, §5): one transition of the
Phase-2 scheduler under a counting semaphore of capacity `limit`:
* `start` — a worker acquires a semaphore slot and dispatches a call; only
  possible while fewer than `limit` calls are in flight;
* `retry` — an in-flight call fails transiently and is retried by the same
  worker **without releasing its slot**;
* `finish` — an in-flight call resolves (success or fallback) and releases
  its slot. -/
inductive SemStep (limit : ℕ) : SemState → SemState → Prop where
  | start {s : SemState} : s.pending ≠ 0 → s.inFlight < limit →
      SemStep limit s ⟨s.pending - 1, s.inFlight + 1, s.done⟩
  | retry {s : SemState} : s.inFlight ≠ 0 → SemStep limit s s
  | finish {s : SemState} : s.inFlight ≠ 0 →
      SemStep limit s ⟨s.pending, s.inFlight - 1, s.done + 1⟩

/-- States reachable by the Phase-2 scheduler of a run dispatching `n`
selected candidates under a shared semaphore of capacity `limit`. -/
inductive SemReachable (limit n : ℕ) : SemState → Prop where
  | init : SemReachable limit n ⟨n, 0, 0⟩
  | step {s t : SemState} : SemReachable limit n s → SemStep limit s t →
      SemReachable limit n t

/-- Modelled from the spec (§3, §6): a run's stored metadata. -/
structure RunRec where
  runId : ℕ
  requirements : RequirementsModel
  poolSize : ℕ
  minScoreThreshold : ℚ
  topN : ℕ

/-- Modelled from the spec (§6): the ResultStore — runs with their
MatchResults, keyed by run identifier. -/
structure ResultStore where
  nextId : ℕ
  runs : List (ℕ × RunRec × List MatchResult)

/-- Modelled from the spec (§6): `createRun` allocates a fresh `runId` and
records the run's requirements snapshot and parameters. -/
def createRun (s : ResultStore) (req : RequirementsModel) (poolSize : ℕ)
    (minScoreThreshold : ℚ) (topN : ℕ) : ℕ × ResultStore :=
  (s.nextId,
    { nextId := s.nextId + 1
      runs := (s.nextId,
        { runId := s.nextId, requirements := req, poolSize := poolSize
          minScoreThreshold := minScoreThreshold, topN := topN }, []) :: s.runs })

/-- Modelled from the spec (§6): append MatchResults under an existing
`runId` (append-only). -/
def appendResults (s : ResultStore) (id : ℕ) (rs : List MatchResult) : ResultStore :=
  { s with runs := s.runs.map (fun e => if e.1 = id then (e.1, e.2.1, e.2.2 ++ rs) else e) }

/-- Modelled from the spec (§6): `getResults` retrieves a run and its
MatchResults; it returns a distinct not-found outcome (`none`) for an unknown
`runId` and leaves the store untouched. -/
def getResults (s : ResultStore) (id : ℕ) :
    Option (RunRec × List MatchResult) × ResultStore :=
  (match s.runs.find? (fun e => e.1 == id) with
    | some e => some (e.2.1, e.2.2)
    | none => none, s)

end Core

namespace Frontend

/-- A browser `File` object as used by `SearchUsingJD.jsx`: its name, MIME
type (`file.type`) and size in bytes (`file.size`). -/
structure JDFile where
  name : String
  type : String
  size : ℕ
deriving DecidableEq

/-- The component state touched by `handleFile` in `SearchUsingJD.jsx`
(`file`, `results`, `error`); the shape of the results payload is irrelevant
to the handler, hence the type parameter. -/
structure JDSearchState (ρ : Type) where
  file : Option JDFile
  results : Option ρ
  error : Option String

/-- The allowed MIME types of `handleFile`
(`SearchUsingJD.jsx:147`): PDF and DOCX. -/
def allowedTypes : List String :=
  ["application/pdf", "application/vnd.openxmlformats-officedocument.wordprocessingml.document"]

/-- `handleFile` from `SearchUsingJD.jsx:146-162`: reject (leaving state
unchanged) when the MIME type is not allowed, reject when the size exceeds
10 × 1024 × 1024 bytes, otherwise select the file and clear previous results
and error. -/
def handleFile {ρ : Type} (st : JDSearchState ρ) (f : JDFile) : JDSearchState ρ :=
  if !(allowedTypes.contains f.type) then st
  else if 10 * 1024 * 1024 < f.size then st
  else { st with file := some f, results := none, error := none }

/-- JS `String.prototype.trim` on the character-list view of a string:
whitespace stripped from both ends. -/
def jsTrim (s : String) : String :=
  ⟨((s.toList.dropWhile Char.isWhitespace).reverse.dropWhile Char.isWhitespace).reverse⟩

/-- The request `handleFindCandidates` sends: the endpoint path, the query
parameters appended to it, and the form body (either the selected file or
the manually entered JD text). -/
structure AnalyzeRequest where
  path : String
  query : List (String × String)
  fileBody : Option JDFile
  textBody : Option String
deriving DecidableEq

/-- `handleFindCandidates` from `SearchUsingJD.jsx:169-203`, up to the
`fetch` call: the input guards (a file must be selected in upload mode, the
text must be non-blank in manual mode) and the request construction.  The
query parameters are hard-coded: `min_score=10`, `top_n=50`. -/
def handleFindCandidates (jdMethod : String) (file : Option JDFile)
    (jdText : String) : Option AnalyzeRequest :=
  if jdMethod = "upload" ∧ file = none then none
  else if jdMethod = "manual" ∧ jsTrim jdText = "" then none
  else some
    { path := "/jd/analyze"
      query := [("min_score", "10"), ("top_n", "50")]
      fileBody := if jdMethod = "upload" then file else none
      textBody := if jdMethod = "manual" then some jdText else none }

/-- A returned match as consumed by the results view of `SearchUsingJD.jsx`
(the fields the location filter touches; absent JS fields are modelled as the
empty string, which is exactly what the code's truthiness guards test). -/
structure JDMatch where
  resume_id : ℕ
  match_score : ℚ
  location : String
  preferred_location : String

/-- The location-filter predicate of `SearchUsingJD.jsx:377` (also lines 335
and 382): a match is kept when the filter is empty (falsy), or its
`location` is truthy and contains the filter case-insensitively, or its
`preferred_location` is truthy and contains the filter case-insensitively. -/
def matchVisible (locationFilter : String) (m : JDMatch) : Bool :=
  decide (locationFilter = "") ||
    (decide (m.location ≠ "") && containsCI m.location locationFilter) ||
    (decide (m.preferred_location ≠ "") && containsCI m.preferred_location locationFilter)

/-- The displayed result list of `SearchUsingJD.jsx:376-385`:
`results.top_matches.filter(...)`. -/
def visibleMatches (locationFilter : String) (top_matches : List JDMatch) :
    List JDMatch :=
  top_matches.filter (matchVisible locationFilter)

/-- The claim's filter condition, stated as written: the filter string is
empty, or it is a case-insensitive substring of the match's `location`, or of
its `preferred_location`. -/
def VisibleSpec (locationFilter : String) (m : JDMatch) : Prop :=
  locationFilter = "" ∨
    lowerChars locationFilter <:+: lowerChars m.location ∨
    lowerChars locationFilter <:+: lowerChars m.preferred_location

end Frontend

open Core Frontend

/-- Concrete fixture: a single candidate used to witness run-level claims. -/
def candW : CandidateProfile :=
  ⟨1, [], 5, "", "", "", ""⟩

/-- Concrete fixture: a requirements model with no required skills. -/
def reqW : RequirementsModel :=
  ⟨[], [], 0, "", Level.mid⟩

/-- Concrete fixture: the always-failing SemanticScorer outcome (every call
exhausts its retry budget). -/
def orcNone : Oracle := fun _ => none

/-- Concrete fixture for the §8 scenario of C4: requirements
`{required:[Python, SQL], preferred:[AWS], minExperience:3}`. -/
def reqA : RequirementsModel :=
  ⟨["Python", "SQL"], ["AWS"], 3, "", Level.mid⟩

/-- Concrete fixture for the §8 scenario of C4: candidate A
`{skills:[Python, SQL, AWS], experience:5}`. -/
def candA : CandidateProfile :=
  ⟨1, ["Python", "SQL", "AWS"], 5, "", "", "", ""⟩

/-- Concrete fixture: a stored run record for the C7 witness. -/
def runRec0 : RunRec := ⟨0, reqW, 1, 0, 10⟩

/-- Concrete fixture: a store holding exactly run 0. -/
def store0 : ResultStore := ⟨1, [(0, runRec0, [])]⟩

/-- Concrete fixture for the §8 scenario of C6: requirements with one
required skill. -/
def reqS : RequirementsModel :=
  ⟨["p"], [], 0, "e", Level.senior⟩

/-- Concrete fixture for the §8 scenario of C6: a candidate that passes
Phase 1 (full skill, experience and keyword match). -/
def goodCand (i : ℕ) : CandidateProfile :=
  ⟨i, ["p"], 1, "", "p e senior", "", ""⟩

/-- Concrete fixture for the §8 scenario of C6: a candidate that fails
Phase 1 (no skill overlap, no keyword hits). -/
def badCand (i : ℕ) : CandidateProfile :=
  ⟨i, [], 0, "", "", "", ""⟩

/-- Concrete fixture for the §8 scenario of C6: a pool of 200 candidates of
which exactly the first 30 pass the threshold 80. -/
def poolS : List CandidateProfile :=
  ((List.range 30).map goodCand) ++ ((List.range 170).map (fun i => badCand (30 + i)))

lemma roundHalfEven_nonneg {q : ℚ} (h : 0 ≤ q) : 0 ≤ roundHalfEven q := by
  have hf : 0 ≤ ⌊q⌋ := Int.floor_nonneg.mpr h
  unfold roundHalfEven
  split_ifs <;> omega

lemma roundHalfEven_le {q : ℚ} {n : ℤ} (h : q ≤ (n : ℚ)) : roundHalfEven q ≤ n := by
  have hf : ⌊q⌋ ≤ n := by
    have h2 := Int.floor_mono h
    rwa [Int.floor_intCast] at h2
  unfold roundHalfEven
  split_ifs with h1 h2 h3
  · exact hf
  · have hge : 1/2 ≤ q - (⌊q⌋ : ℚ) := not_lt.mp h1
    have hlt : ((⌊q⌋ : ℚ)) < (n : ℚ) := by linarith
    have : ⌊q⌋ < n := by exact_mod_cast hlt
    omega
  · exact hf
  · have hge : 1/2 ≤ q - (⌊q⌋ : ℚ) := not_lt.mp h1
    have hlt : ((⌊q⌋ : ℚ)) < (n : ℚ) := by linarith
    have : ⌊q⌋ < n := by exact_mod_cast hlt
    omega

lemma round1_nonneg {q : ℚ} (h : 0 ≤ q) : 0 ≤ round1 q := by
  unfold round1
  have h10 : (0 : ℚ) ≤ 10 * q := by linarith
  have hr := roundHalfEven_nonneg h10
  exact div_nonneg (by exact_mod_cast hr) (by norm_num)

lemma round1_le_100 {q : ℚ} (h : q ≤ 100) : round1 q ≤ 100 := by
  unfold round1
  have h10 : 10 * q ≤ ((1000 : ℤ) : ℚ) := by push_cast; linarith
  have hr := roundHalfEven_le h10
  have hc : ((roundHalfEven (10 * q) : ℤ) : ℚ) ≤ 1000 := by exact_mod_cast hr
  linarith

lemma weightedSum_range {fs : FactorScores} (h : fs.InRange) :
    0 ≤ weightedSum fs ∧ weightedSum fs ≤ 100 := by
  obtain ⟨h1, h2, h3, h4, h5, h6, h7, h8, h9, h10, h11, h12⟩ := h
  unfold weightedSum
  constructor <;> linarith

lemma universalFitScore_range {fs : FactorScores} (h : fs.InRange) :
    0 ≤ universalFitScore fs ∧ universalFitScore fs ≤ 100 := by
  obtain ⟨hw1, hw2⟩ := weightedSum_range h
  exact ⟨round1_nonneg hw1, round1_le_100 hw2⟩

lemma skillOverlapScore_range (req : RequirementsModel) (cand : CandidateProfile) :
    0 ≤ skillOverlapScore req cand ∧ skillOverlapScore req cand ≤ 100 := by
  unfold skillOverlapScore
  split_ifs with h1 h2
  · norm_num [noOverlapPenalty]
  · norm_num
  · constructor
    · apply le_min (by norm_num)
      apply div_nonneg
      · positivity
      · positivity
    · exact min_le_left _ _

lemma keywords_length_pos (req : RequirementsModel) : 0 < (keywords req).length := by
  unfold keywords
  simp [List.length_append]

lemma keywordScore_range (req : RequirementsModel) (cand : CandidateProfile) :
    0 ≤ keywordScore req cand ∧ keywordScore req cand ≤ 100 := by
  unfold keywordScore
  have hpos : (0 : ℚ) < ((keywords req).length : ℚ) := by
    exact_mod_cast keywords_length_pos req
  constructor
  · apply div_nonneg
    · positivity
    · positivity
  · rw [div_le_iff₀ hpos]
    have hle : (((keywords req).filter (keywordHit cand)).length : ℚ) ≤
        ((keywords req).length : ℚ) := by
      exact_mod_cast List.length_filter_le _ _
    linarith

lemma experienceScore_range (req : RequirementsModel) (cand : CandidateProfile)
    (hexp : 0 ≤ cand.experienceYears) :
    0 ≤ experienceScore req cand ∧ experienceScore req cand ≤ 100 := by
  unfold experienceScore
  split_ifs with h1 h2
  · norm_num
  · norm_num
  · have hmin : 0 < req.minExperienceYears := lt_of_le_of_lt hexp (not_le.mp h1)
    constructor
    · exact div_nonneg (by linarith) (le_of_lt hmin)
    · rw [div_le_iff₀ hmin]
      have := not_le.mp h1
      linarith

lemma compositePreliminary_range (req : RequirementsModel) (cand : CandidateProfile)
    (hexp : 0 ≤ cand.experienceYears) :
    0 ≤ (score req cand).compositePreliminary ∧
      (score req cand).compositePreliminary ≤ 100 := by
  have h1 := skillOverlapScore_range req cand
  have h2 := experienceScore_range req cand hexp
  have h3 := keywordScore_range req cand
  simp only [score]
  constructor <;> linarith [h1.1, h1.2, h2.1, h2.2, h3.1, h3.2]

lemma fallbackScores_inRange (req : RequirementsModel) (cand : CandidateProfile)
    (hexp : 0 ≤ cand.experienceYears) :
    (fallbackScores (score req cand)).InRange := by
  have h1 := skillOverlapScore_range req cand
  have h3 := keywordScore_range req cand
  have h4 := compositePreliminary_range req cand hexp
  unfold fallbackScores FactorScores.InRange
  simp only [score] at *
  refine ⟨h1.1, h1.2, h4.1, h4.2, ?_, ?_, by norm_num, by norm_num, h3.1, h3.2,
    by norm_num, by norm_num⟩
  · exact mul_nonneg h4.1 (by norm_num)
  · nlinarith [h4.1, h4.2]

lemma buildResult_factorScores_inRange (runId : ℕ) (req : RequirementsModel)
    (oracle : Oracle) (cand : CandidateProfile)
    (hora : ∀ i fs, oracle i = some fs → fs.InRange)
    (hexp : 0 ≤ cand.experienceYears) :
    (buildResult runId req oracle cand).factorScores.InRange := by
  unfold buildResult
  cases horacle : oracle cand.id with
  | some fs =>
    simp only [horacle]
    exact hora _ _ horacle
  | none =>
    simp only [horacle]
    exact fallbackScores_inRange req cand hexp

lemma buildResult_ufs (runId : ℕ) (req : RequirementsModel) (oracle : Oracle)
    (cand : CandidateProfile) :
    (buildResult runId req oracle cand).universalFitScore =
      universalFitScore (buildResult runId req oracle cand).factorScores := rfl

lemma runMatch_fst_perm (runId : ℕ) (req : RequirementsModel)
    (pool : List CandidateProfile) (thr : ℚ) (topN : ℕ) (oracle : Oracle) :
    (runMatch runId req pool thr topN oracle).1 ~
      (survivors req pool thr).map (buildResult runId req oracle) := by
  unfold runMatch runRanked
  refine (List.Perm.map _ (List.perm_insertionSort _ _)).trans ?_
  rw [List.map_map]
  exact List.Perm.refl _

lemma mem_runMatch_fst {runId : ℕ} {req : RequirementsModel}
    {pool : List CandidateProfile} {thr : ℚ} {topN : ℕ} {oracle : Oracle}
    {c : CandidateProfile} (h : c ∈ survivors req pool thr) :
    buildResult runId req oracle c ∈ (runMatch runId req pool thr topN oracle).1 :=
  (runMatch_fst_perm runId req pool thr topN oracle).mem_iff.mpr
    (List.mem_map_of_mem _ h)

lemma rankLE_ufs {a b : Scored} (h : rankLE a b) :
    b.result.universalFitScore ≤ a.result.universalFitScore := by
  unfold rankLE rankKey at h
  rcases (Prod.Lex.le_iff _ _).mp h with h1 | ⟨h1, -⟩
  · have : b.result.universalFitScore < a.result.universalFitScore := by
      simpa using h1
    exact le_of_lt this
  · have : a.result.universalFitScore = b.result.universalFitScore := by
      simpa using h1
    exact le_of_eq this.symm

lemma rankKey_eq_id {s₁ s₂ : Scored} (h : rankKey s₁ = rankKey s₂) :
    s₁.result.candidateId = s₂.result.candidateId := by
  unfold rankKey at h
  rw [toLex_inj, Prod.mk.injEq] at h
  obtain ⟨-, h2⟩ := h
  rw [toLex_inj, Prod.mk.injEq] at h2
  exact h2.2

lemma sorted_key_perm_eq {α κ : Type*} [LinearOrder κ] (key : α → κ) :
    ∀ {l₁ l₂ : List α}, l₁ ~ l₂ → l₁.Sorted (fun a b => key a ≤ key b) →
      l₂.Sorted (fun a b => key a ≤ key b) → (l₁.map key).Nodup → l₁ = l₂ := by
  intro l₁
  induction l₁ with
  | nil =>
    intro l₂ hp _ _ _
    exact (List.Perm.eq_nil hp.symm).symm
  | cons a t ih =>
    intro l₂ hp hs₁ hs₂ hnd
    cases l₂ with
    | nil => exact absurd hp (by simp)
    | cons b t₂ =>
      have hmem_b : b ∈ a :: t := hp.symm.subset (List.mem_cons_self b t₂)
      have hmem_a : a ∈ b :: t₂ := hp.subset (List.mem_cons_self a t)
      have hab : a = b := by
        rcases List.mem_cons.mp hmem_b with hb | hb
        · exact hb.symm
        · rcases List.mem_cons.mp hmem_a with ha | ha
          · exact ha
          · have hle₁ : key a ≤ key b := List.rel_of_pairwise_cons hs₁ hb
            have hle₂ : key b ≤ key a := List.rel_of_pairwise_cons hs₂ ha
            have hkey : key b = key a := le_antisymm hle₂ hle₁
            have hnotin : key a ∉ t.map key := by
              simp only [List.map_cons, List.nodup_cons] at hnd
              exact hnd.1
            exact absurd (hkey ▸ List.mem_map_of_mem key hb) hnotin
      subst hab
      have ht : t ~ t₂ := (List.perm_cons a).mp hp
      have hndt : (t.map key).Nodup := by
        simp only [List.map_cons, List.nodup_cons] at hnd
        exact hnd.2
      rw [ih ht hs₁.of_cons hs₂.of_cons hndt]

lemma buildScored_id (runId : ℕ) (req : RequirementsModel) (oracle : Oracle)
    (c : CandidateProfile) :
    (buildScored runId req oracle c).result.candidateId = c.id := rfl

lemma survivors_ids_nodup (req : RequirementsModel) (pool : List CandidateProfile)
    (thr : ℚ) (h : (pool.map (fun c => c.id)).Nodup) :
    ((survivors req pool thr).map (fun c => c.id)).Nodup :=
  List.Nodup.sublist (List.Sublist.map _ (List.filter_sublist _)) h

lemma keys_nodup_of_perm {runId : ℕ} {req : RequirementsModel}
    {pool : List CandidateProfile} {thr : ℚ} {oracle : Oracle} {l : List Scored}
    (hnd : (pool.map (fun c => c.id)).Nodup)
    (h : l ~ (survivors req pool thr).map (buildScored runId req oracle)) :
    (l.map rankKey).Nodup := by
  have h₁ : ((survivors req pool thr).map (fun c => c.id)).Nodup :=
    survivors_ids_nodup req pool thr hnd
  have h₂ : ((((survivors req pool thr)).map (buildScored runId req oracle)).map
      rankKey).Nodup := by
    rw [List.map_map]
    have hpw : (survivors req pool thr).Pairwise (fun c d => c.id ≠ d.id) :=
      (List.pairwise_map).mp h₁
    have hpw2 : (survivors req pool thr).Pairwise (fun c d =>
        rankKey (buildScored runId req oracle c) ≠
          rankKey (buildScored runId req oracle d)) := by
      refine hpw.imp ?_
      intro c d hne hkey
      exact hne (rankKey_eq_id hkey)
    exact (List.pairwise_map).mpr hpw2
  exact ((h.map rankKey).nodup_iff).mpr h₂

lemma runRanked_sorted (runId : ℕ) (req : RequirementsModel)
    (pool : List CandidateProfile) (thr : ℚ) (oracle : Oracle) :
    (runRanked runId req pool thr oracle).Sorted rankLE :=
  List.sorted_insertionSort rankLE _

lemma insertionSort_arrival_eq (runId : ℕ) (req : RequirementsModel)
    (pool : List CandidateProfile) (thr : ℚ) (oracle : Oracle)
    (arrival : List CandidateProfile)
    (hnd : (pool.map (fun c => c.id)).Nodup)
    (hperm : arrival ~ survivors req pool thr) :
    List.insertionSort rankLE (arrival.map (buildScored runId req oracle)) =
      runRanked runId req pool thr oracle := by
  have hp : List.insertionSort rankLE (arrival.map (buildScored runId req oracle)) ~
      (survivors req pool thr).map (buildScored runId req oracle) :=
    (List.perm_insertionSort _ _).trans (hperm.map _)
  have hp2 : List.insertionSort rankLE (arrival.map (buildScored runId req oracle)) ~
      runRanked runId req pool thr oracle :=
    hp.trans (List.perm_insertionSort _ _).symm
  exact sorted_key_perm_eq rankKey hp2
    (by exact List.sorted_insertionSort rankLE _)
    (by exact runRanked_sorted runId req pool thr oracle)
    (keys_nodup_of_perm hnd hp)

lemma runMatchArrival_eq (runId : ℕ) (req : RequirementsModel)
    (pool : List CandidateProfile) (thr : ℚ) (topN : ℕ) (oracle : Oracle)
    (arrival : List CandidateProfile)
    (hnd : (pool.map (fun c => c.id)).Nodup)
    (hperm : arrival ~ survivors req pool thr) :
    runMatchArrival runId req arrival topN oracle =
      runMatch runId req pool thr topN oracle := by
  unfold runMatchArrival runMatch
  rw [insertionSort_arrival_eq runId req pool thr oracle arrival hnd hperm]

lemma runMatch_fst_pairwise_ufs (runId : ℕ) (req : RequirementsModel)
    (pool : List CandidateProfile) (thr : ℚ) (topN : ℕ) (oracle : Oracle) :
    ((runMatch runId req pool thr topN oracle).1).Pairwise
      (fun a b => b.universalFitScore ≤ a.universalFitScore) := by
  have hs := runRanked_sorted runId req pool thr oracle
  have hm : ((runRanked runId req pool thr oracle).map (fun s => s.result)).Pairwise
      (fun a b => b.universalFitScore ≤ a.universalFitScore) := by
    rw [List.pairwise_map]
    exact hs.imp rankLE_ufs
  exact hm

lemma scoreGood (i : ℕ) : (score reqS (goodCand i)).compositePreliminary = 100 := by
  have h1 : skillOverlapScore reqS (goodCand i) = 100 := by
    unfold skillOverlapScore
    rw [if_neg (by simp [reqS])]
    rw [show overlapCount (goodCand i).skills reqS.requiredSkills = 1 from rfl,
      show overlapCount (goodCand i).skills reqS.preferredSkills = 0 from rfl,
      show reqS.requiredSkills.length = 1 from rfl,
      show reqS.preferredSkills.length = 0 from rfl]
    norm_num [min_def]
  have h2 : experienceScore reqS (goodCand i) = 100 := by
    unfold experienceScore
    rw [if_pos (by norm_num [reqS, goodCand])]
  have h3 : keywordScore reqS (goodCand i) = 100 := by
    unfold keywordScore
    rw [show ((keywords reqS).filter (keywordHit (goodCand i))).length = 3 from rfl,
      show (keywords reqS).length = 3 from rfl]
    norm_num
  simp only [score]
  rw [h1, h2, h3]
  norm_num

lemma scoreBad (i : ℕ) : (score reqS (badCand i)).compositePreliminary = 30 := by
  have h1 : skillOverlapScore reqS (badCand i) = 0 := by
    unfold skillOverlapScore
    rw [if_neg (by simp [reqS])]
    rw [show overlapCount (badCand i).skills reqS.requiredSkills = 0 from rfl,
      show overlapCount (badCand i).skills reqS.preferredSkills = 0 from rfl,
      show reqS.requiredSkills.length = 1 from rfl,
      show reqS.preferredSkills.length = 0 from rfl]
    norm_num [min_def]
  have h2 : experienceScore reqS (badCand i) = 100 := by
    unfold experienceScore
    rw [if_pos (by norm_num [reqS, badCand])]
  have h3 : keywordScore reqS (badCand i) = 0 := by
    unfold keywordScore
    rw [show ((keywords reqS).filter (keywordHit (badCand i))).length = 0 from rfl]
    norm_num
  simp only [score]
  rw [h1, h2, h3]
  norm_num

lemma survivors_poolS : survivors reqS poolS 80 = (List.range 30).map goodCand := by
  unfold survivors poolS
  rw [List.filter_append, List.filter_map, List.filter_map]
  simp only [Function.comp_def]
  have hg : List.filter
      (fun i => decide (80 ≤ (score reqS (goodCand i)).compositePreliminary))
      (List.range 30) = List.range 30 := by
    apply List.filter_eq_self.mpr
    intro i _
    rw [scoreGood i]
    exact decide_eq_true (by norm_num)
  have hb : List.filter
      (fun i => decide (80 ≤ (score reqS (badCand (30 + i))).compositePreliminary))
      (List.range 170) = [] := by
    apply List.filter_eq_nil_iff.mpr
    intro i _
    rw [scoreBad (30 + i)]
    intro hd
    exact absurd (of_decide_eq_true hd) (by norm_num)
  rw [hg, hb]
  simp

lemma lowerChars_eq_nil {s : String} : lowerChars s = [] ↔ s = "" := by
  unfold lowerChars
  constructor
  · intro h
    have h2 : s.toList = [] := by simpa using h
    rw [← String.toList_empty] at h2
    exact String.toList_inj.mp h2
  · intro h
    subst h
    rfl

lemma containsCI_iff {hay needle : String} :
    containsCI hay needle = true ↔ lowerChars needle <:+: lowerChars hay := by
  unfold containsCI
  exact decide_eq_true_iff

lemma contains_iff_mem (l : List String) (a : String) :
    l.contains a = true ↔ a ∈ l := by
  rw [List.contains_iff_exists_mem_beq]
  constructor
  · rintro ⟨b, hb, he⟩
    rw [beq_iff_eq] at he
    exact he ▸ hb
  · intro h
    exact ⟨a, h, by simp⟩


/-- C8: whenever `handleFindCandidates` passes its input guards and builds a
request to the `/jd/analyze` endpoint, that request carries exactly the query
parameters `min_score=10` and `top_n=50`, independent of any user input. -/
theorem claim8_analyze_query_params :
    ∀ (jdMethod : String) (file : Option JDFile) (jdText : String)
      (r : AnalyzeRequest),
      handleFindCandidates jdMethod file jdText = some r →
        r.query = [("min_score", "10"), ("top_n", "50")] ∧ r.path = "/jd/analyze" := by
  intro m f t r h
  unfold handleFindCandidates at h
  split_ifs at h
  all_goals first
    | exact Option.noConfusion h
    | (have he := Option.some_inj.mp h
       subst he
       exact ⟨rfl, rfl⟩)

/-- C8 witness: a concrete manual-mode invocation that passes the guards and
produces the fixed query parameters. -/
theorem claim8_analyze_query_params_witness :
    ({ path := "/jd/analyze"
       query := [("min_score", "10"), ("top_n", "50")]
       fileBody := none
       textBody := some ("x") } : AnalyzeRequest).query =
      [("min_score", "10"), ("top_n", "50")] ∧
    ({ path := "/jd/analyze"
       query := [("min_score", "10"), ("top_n", "50")]
       fileBody := none
       textBody := some ("x") } : AnalyzeRequest).path = "/jd/analyze" :=
  claim8_analyze_query_params ("manual") none ("x") _ rfl

/-- C9: `handleFile` selects the chosen file (clearing previous results and
error) exactly when its MIME type is PDF or DOCX and its size is at most
10 × 1024 × 1024 bytes; any other file leaves the component state
unchanged. -/
theorem claim9_handleFile_guard :
    ∀ (ρ : Type) (st : JDSearchState ρ) (f : JDFile),
      handleFile st f =
        if f.type ∈ allowedTypes ∧ f.size ≤ 10 * 1024 * 1024 then
          { st with file := some f, results := none, error := none }
        else st := by
  intro ρ st f
  by_cases h1 : f.type ∈ allowedTypes
  · have hc : allowedTypes.contains f.type = true := (contains_iff_mem _ _).mpr h1
    by_cases h2 : f.size ≤ 10 * 1024 * 1024
    · rw [if_pos ⟨h1, h2⟩]
      unfold handleFile
      rw [if_neg (by simp [hc, h1]), if_neg (by omega)]
    · rw [if_neg (by tauto)]
      unfold handleFile
      rw [if_neg (by simp [hc, h1]), if_pos (by omega)]
  · rw [if_neg (by tauto)]
    unfold handleFile
    have hc : allowedTypes.contains f.type = false := by
      cases hcb : allowedTypes.contains f.type
      · rfl
      · exact absurd ((contains_iff_mem _ _).mp hcb) h1
    rw [if_pos (by simp [hc, h1])]

/-- C10: a returned match is displayed iff the location filter is empty or is
a case-insensitive substring of its `location` or of its
`preferred_location`; the displayed list is the filter of the server's
`top_matches` and hence a subsequence of it (never reordered). -/
theorem claim10_location_filter :
    ∀ (locationFilter : String) (top_matches : List JDMatch) (m : JDMatch),
      (m ∈ visibleMatches locationFilter top_matches ↔
        m ∈ top_matches ∧ VisibleSpec locationFilter m) ∧
      visibleMatches locationFilter top_matches <+ top_matches := by
  intro filt ms m
  constructor
  · rw [visibleMatches, List.mem_filter]
    constructor
    · rintro ⟨hm, hv⟩
      refine ⟨hm, ?_⟩
      unfold matchVisible at hv
      simp only [Bool.or_eq_true, Bool.and_eq_true, decide_eq_true_eq] at hv
      unfold VisibleSpec
      rcases hv with (h | ⟨-, h⟩) | ⟨-, h⟩
      · exact Or.inl h
      · exact Or.inr (Or.inl (containsCI_iff.mp h))
      · exact Or.inr (Or.inr (containsCI_iff.mp h))
    · rintro ⟨hm, hv⟩
      refine ⟨hm, ?_⟩
      unfold matchVisible
      simp only [Bool.or_eq_true, Bool.and_eq_true, decide_eq_true_eq]
      by_cases hf : filt = ""
      · exact Or.inl (Or.inl hf)
      · unfold VisibleSpec at hv
        rcases hv with hf2 | hsub | hsub
        · exact absurd hf2 hf
        · refine Or.inl (Or.inr ⟨?_, containsCI_iff.mpr hsub⟩)
          intro hl
          apply hf
          rw [hl] at hsub
          exact lowerChars_eq_nil.mp (List.sublist_nil.mp hsub.sublist)
        · refine Or.inr ⟨?_, containsCI_iff.mpr hsub⟩
          intro hl
          apply hf
          rw [hl] at hsub
          exact lowerChars_eq_nil.mp (List.sublist_nil.mp hsub.sublist)
  · exact List.filter_sublist _

/-- C1: every MatchResult a run produces stores a `universalFitScore` that is
recomputed bit-for-bit as the weighted sum (weights §4.3) of its stored
`factorScores`, rounded to one decimal half-to-even, and the value lies in
[0, 100] (given boundary-validated semantic scores and non-negative
experience). -/
theorem claim1_universal_fit_score :
    ∀ (runId : ℕ) (req : RequirementsModel) (pool : List CandidateProfile)
      (thr : ℚ) (topN : ℕ) (oracle : Oracle),
      (∀ i fs, oracle i = some fs → fs.InRange) →
      (∀ c ∈ pool, 0 ≤ c.experienceYears) →
      ∀ r ∈ (runMatch runId req pool thr topN oracle).1,
        r.universalFitScore = universalFitScore r.factorScores ∧
          0 ≤ r.universalFitScore ∧ r.universalFitScore ≤ 100 := by
  intro runId req pool thr topN oracle hora hexp r hr
  have hr2 := (runMatch_fst_perm runId req pool thr topN oracle).mem_iff.mp hr
  obtain ⟨c, hc, rfl⟩ := List.mem_map.mp hr2
  have hcp : c ∈ pool := List.mem_of_mem_filter hc
  have hce : 0 ≤ c.experienceYears := hexp c hcp
  have hir := buildResult_factorScores_inRange runId req oracle c hora hce
  have hrange := universalFitScore_range hir
  refine ⟨buildResult_ufs runId req oracle c, ?_, ?_⟩
  · rw [buildResult_ufs runId req oracle c]
    exact hrange.1
  · rw [buildResult_ufs runId req oracle c]
    exact hrange.2

/-- C1 witness: the single-candidate all-fallback run concretely satisfies
the recomputation identity and the bounds. -/
theorem claim1_universal_fit_score_witness :
    (buildResult 0 reqW orcNone candW).universalFitScore =
      universalFitScore (buildResult 0 reqW orcNone candW).factorScores ∧
      0 ≤ (buildResult 0 reqW orcNone candW).universalFitScore ∧
      (buildResult 0 reqW orcNone candW).universalFitScore ≤ 100 := by
  have hmem : buildResult 0 reqW orcNone candW ∈ (runMatch 0 reqW [candW] 0 5 orcNone).1 := by
    apply mem_runMatch_fst
    unfold survivors
    refine List.mem_filter.mpr ⟨List.mem_singleton.mpr rfl, ?_⟩
    exact decide_eq_true (compositePreliminary_range reqW candW (by norm_num [candW])).1
  exact claim1_universal_fit_score 0 reqW [candW] 0 5 orcNone
    (fun i fs h => Option.noConfusion h)
    (by
      intro c hc
      rw [List.mem_singleton] at hc
      subst hc
      norm_num [candW])
    (buildResult 0 reqW orcNone candW) hmem

/-- C4: the TraditionalScorer computes `compositePreliminary =
0.5×skillOverlapScore + 0.3×experienceScore + 0.2×keywordScore`, with
`experienceScore` 100 at or above the experience floor, 100 when the floor is
0, and the linear ramp otherwise; on the §8 scenario, candidate A scores
`skillOverlapScore = 100` and `experienceScore = 100`. -/
theorem claim4_traditional_scorer :
    ∀ (req : RequirementsModel) (cand : CandidateProfile),
      ((score req cand).compositePreliminary =
        5/10 * (score req cand).skillOverlapScore +
          3/10 * (score req cand).experienceScore +
          2/10 * (score req cand).keywordScore) ∧
      (req.minExperienceYears ≤ cand.experienceYears →
        (score req cand).experienceScore = 100) ∧
      (req.minExperienceYears = 0 → (score req cand).experienceScore = 100) ∧
      (¬ req.minExperienceYears ≤ cand.experienceYears → req.minExperienceYears ≠ 0 →
        (score req cand).experienceScore =
          100 * cand.experienceYears / req.minExperienceYears) ∧
      (score reqA candA).skillOverlapScore = 100 ∧
      (score reqA candA).experienceScore = 100 := by
  intro req cand
  refine ⟨rfl, ?_, ?_, ?_, ?_, ?_⟩
  · intro h
    simp only [score, experienceScore]
    rw [if_pos h]
  · intro h0
    simp only [score, experienceScore]
    by_cases h : req.minExperienceYears ≤ cand.experienceYears
    · rw [if_pos h]
    · rw [if_neg h, if_pos h0]
  · intro h h0
    simp only [score, experienceScore]
    rw [if_neg h, if_neg h0]
  · simp only [score]
    unfold skillOverlapScore
    rw [if_neg (by simp [reqA])]
    rw [show overlapCount candA.skills reqA.requiredSkills = 2 from rfl,
      show overlapCount candA.skills reqA.preferredSkills = 1 from rfl,
      show reqA.requiredSkills.length = 2 from rfl,
      show reqA.preferredSkills.length = 1 from rfl]
    norm_num
  · simp only [score]
    unfold experienceScore
    rw [if_pos (by norm_num [reqA, candA])]

/-- C4 witness: candidate A concretely clears the experience floor, so the
first branch applies and yields 100. -/
theorem claim4_traditional_scorer_witness :
    (score reqA candA).experienceScore = 100 :=
  (claim4_traditional_scorer reqA candA).2.1 (by norm_num [reqA, candA])

/-- C5: at every reachable point of a run's Phase-2 scheduling — including
while calls finish early and others are retried — the number of in-flight
SemanticScorer calls never exceeds the semaphore capacity `concurrencyLimit`. -/
theorem claim5_concurrency_bound :
    ∀ (limit n : ℕ) (s : SemState), SemReachable limit n s → s.inFlight ≤ limit := by
  intro limit n s h
  induction h with
  | init => exact Nat.zero_le _
  | step hr hstep ih =>
    cases hstep with
    | start hp hlt => exact hlt
    | retry h0 => exact ih
    | finish h0 =>
      simp only
      omega

/-- C5 witness: a concrete reachable state of a 3-candidate run under the
default limit 5 (one dispatch step from the initial state). -/
theorem claim5_concurrency_bound_witness :
    (⟨2, 1, 0⟩ : SemState).inFlight ≤ 5 :=
  claim5_concurrency_bound 5 3 ⟨2, 1, 0⟩
    (SemReachable.step SemReachable.init (SemStep.start (by decide) (by decide)))

/-- C7: `getResults` is idempotent — it never mutates the store, and any two
calls with the same `runId` return identical data; an unknown `runId` yields
the distinct not-found outcome `none` (never an empty list), while a created
`runId` yields `some`. -/
theorem claim7_getResults_idempotent :
    ∀ (s : ResultStore) (id : ℕ),
      ((getResults s id).2 = s ∧
        (getResults ((getResults s id).2) id).1 = (getResults s id).1) ∧
      (id ∉ s.runs.map (fun e => e.1) → (getResults s id).1 = none) ∧
      (id ∈ s.runs.map (fun e => e.1) →
        ∃ rec results, (getResults s id).1 = some (rec, results)) := by
  intro s id
  refine ⟨⟨rfl, rfl⟩, ?_, ?_⟩
  · intro hnot
    simp only [getResults]
    cases hf : s.runs.find? (fun e => e.1 == id) with
    | none => rfl
    | some e =>
      have hmem := List.mem_of_find?_eq_some hf
      have hpred := List.find?_some hf
      rw [beq_iff_eq] at hpred
      exact absurd (hpred ▸ List.mem_map_of_mem (fun e => e.1) hmem) hnot
  · intro hmem
    simp only [getResults]
    cases hf : s.runs.find? (fun e => e.1 == id) with
    | none =>
      obtain ⟨e, he, heid⟩ := List.mem_map.mp hmem
      have hno := List.find?_eq_none.mp hf e he
      rw [beq_iff_eq] at hno
      exact absurd heid hno
    | some e => exact ⟨e.2.1, e.2.2, rfl⟩

/-- C7 witness: on the concrete one-run store, run id 7 is not found
(`none`) while run id 0 is found (`some`). -/
theorem claim7_getResults_idempotent_witness :
    (getResults store0 7).1 = none ∧
      ∃ rec results, (getResults store0 0).1 = some (rec, results) :=
  ⟨(claim7_getResults_idempotent store0 7).2.1 (by decide),
    (claim7_getResults_idempotent store0 0).2.2 (by decide)⟩


/-- C2: the final list is sorted by `universalFitScore` descending with ties
broken by `compositePreliminary` descending then `candidateId` ascending;
the order is total, ties fully resolve for distinct candidates, and the
output is identical for every arrival order of the Phase-2 results
(completion order has no effect). -/
theorem claim2_deterministic_ranking :
    ∀ (runId : ℕ) (req : RequirementsModel) (pool : List CandidateProfile)
      (thr : ℚ) (topN : ℕ) (oracle : Oracle),
      (runRanked runId req pool thr oracle).Sorted rankLE ∧
      (runMatch runId req pool thr topN oracle).1 =
        (runRanked runId req pool thr oracle).map (fun s => s.result) ∧
      (runMatch runId req pool thr topN oracle).2 =
        (runMatch runId req pool thr topN oracle).1.take topN ∧
      (∀ a b : Scored, rankLE a b ↔
        (b.result.universalFitScore < a.result.universalFitScore ∨
          (a.result.universalFitScore = b.result.universalFitScore ∧
            (b.prelim < a.prelim ∨
              (a.prelim = b.prelim ∧
                a.result.candidateId ≤ b.result.candidateId))))) ∧
      (∀ a b : Scored, rankLE a b ∨ rankLE b a) ∧
      (∀ a b : Scored, rankLE a b → rankLE b a →
        a.result.candidateId = b.result.candidateId) ∧
      (∀ arrival : List CandidateProfile,
        (pool.map (fun c => c.id)).Nodup →
        arrival ~ survivors req pool thr →
        runMatchArrival runId req arrival topN oracle =
          runMatch runId req pool thr topN oracle) := by
  intro runId req pool thr topN oracle
  refine ⟨runRanked_sorted runId req pool thr oracle, rfl, rfl, ?_, ?_, ?_, ?_⟩
  · intro a b
    unfold rankLE rankKey
    simp only [Prod.Lex.le_iff]
    simp only [neg_lt_neg_iff, neg_inj]
  · intro a b
    exact le_total (rankKey a) (rankKey b)
  · intro a b h1 h2
    exact rankKey_eq_id (le_antisymm h1 h2)
  · intro arrival hnd hperm
    exact runMatchArrival_eq runId req pool thr topN oracle arrival hnd hperm

/-- C2 witness: on the concrete one-candidate run, merging in the canonical
arrival order yields exactly the canonical output. -/
theorem claim2_deterministic_ranking_witness :
    runMatchArrival 0 reqW (survivors reqW [candW] 0) 5 orcNone =
      runMatch 0 reqW [candW] 0 5 orcNone :=
  (claim2_deterministic_ranking 0 reqW [candW] 0 5 orcNone).2.2.2.2.2.2
    (survivors reqW [candW] 0) (by decide) (List.Perm.refl _)

/-- C3: every Phase-1 survivor whose SemanticScorer outcome failed gets a
MatchResult with the deterministic fallback factor scores
(`skillEvidence = skillOverlapScore`, `execution = compositePreliminary`,
`complexity = compositePreliminary × 0.8`, `learningAgility = 50`,
`domainContext = keywordScore`, `communication = 50`) and
`usedFallback = true`; and a run whose every SemanticScorer call fails still
returns a non-empty ranked list whenever Phase-1 survivors exist. -/
theorem claim3_fallback_synthesis :
    ∀ (runId : ℕ) (req : RequirementsModel) (pool : List CandidateProfile)
      (thr : ℚ) (topN : ℕ) (oracle : Oracle),
      (∀ c ∈ pool, thr ≤ (score req c).compositePreliminary →
        oracle c.id = none →
          buildResult runId req oracle c ∈ (runMatch runId req pool thr topN oracle).1 ∧
          (buildResult runId req oracle c).factorScores = fallbackScores (score req c) ∧
          (buildResult runId req oracle c).usedFallback = true) ∧
      ((∀ i, oracle i = none) → survivors req pool thr ≠ [] → topN ≠ 0 →
        (runMatch runId req pool thr topN oracle).2 ≠ [] ∧
        ∀ r ∈ (runMatch runId req pool thr topN oracle).1,
          r.usedFallback = true ∧ r.factorScores.communication = 50 ∧
            r.factorScores.learningAgility = 50) := by
  intro runId req pool thr topN oracle
  constructor
  · intro c hc hthr hnone
    refine ⟨mem_runMatch_fst (List.mem_filter.mpr ⟨hc, decide_eq_true hthr⟩), ?_, ?_⟩
    · simp [buildResult, hnone]
    · simp [buildResult, hnone]
  · intro hall hsurv htop
    have hlen : (runMatch runId req pool thr topN oracle).1.length =
        (survivors req pool thr).length := by
      rw [(runMatch_fst_perm runId req pool thr topN oracle).length_eq, List.length_map]
    have hfstne : (runMatch runId req pool thr topN oracle).1 ≠ [] := by
      intro h0
      rw [h0] at hlen
      exact hsurv (List.length_eq_zero.mp hlen.symm)
    constructor
    · intro h0
      rw [show (runMatch runId req pool thr topN oracle).2 =
        (runMatch runId req pool thr topN oracle).1.take topN from rfl] at h0
      rcases List.take_eq_nil_iff.mp h0 with h | h
      · exact htop h
      · exact hfstne h
    · intro r hr
      have hr2 := (runMatch_fst_perm runId req pool thr topN oracle).mem_iff.mp hr
      obtain ⟨c, hc, rfl⟩ := List.mem_map.mp hr2
      refine ⟨?_, ?_, ?_⟩ <;> simp [buildResult, hall c.id, fallbackScores]

/-- C3 witness: in the concrete all-failing run, the surviving candidate's
result is a fallback result and the returned list is non-empty. -/
theorem claim3_fallback_synthesis_witness :
    (buildResult 0 reqW orcNone candW).usedFallback = true ∧
      (runMatch 0 reqW [candW] 0 5 orcNone).2 ≠ [] := by
  have hthr := (compositePreliminary_range reqW candW (by norm_num [candW])).1
  have h1 := (claim3_fallback_synthesis 0 reqW [candW] 0 5 orcNone).1 candW
    (List.mem_singleton.mpr rfl) hthr rfl
  have hsurv : survivors reqW [candW] 0 ≠ [] :=
    List.ne_nil_of_mem
      (List.mem_filter.mpr ⟨List.mem_singleton.mpr rfl, decide_eq_true hthr⟩)
  have h2 := (claim3_fallback_synthesis 0 reqW [candW] 0 5 orcNone).2
    (fun i => rfl) hsurv (by norm_num)
  exact ⟨h1.2.2, h2.1⟩

/-- C6: a completed run persists a MatchResult for **every** Phase-1 survivor
while returning the persisted ranking truncated to `topN`; on the §8
scenario (pool of 200, threshold 80, `topN = 10`, 30 survivors) exactly 30
results are persisted, exactly 10 are returned, and the returned list is
sorted descending by `universalFitScore`. -/
theorem claim6_persist_all_truncate_topN :
    (∀ (runId : ℕ) (req : RequirementsModel) (pool : List CandidateProfile)
      (thr : ℚ) (topN : ℕ) (oracle : Oracle),
      ((runMatch runId req pool thr topN oracle).1 ~
        (survivors req pool thr).map (buildResult runId req oracle)) ∧
      (runMatch runId req pool thr topN oracle).1.length =
        (survivors req pool thr).length ∧
      (runMatch runId req pool thr topN oracle).2 =
        (runMatch runId req pool thr topN oracle).1.take topN) ∧
    (runMatch 0 reqS poolS 80 10 orcNone).1.length = 30 ∧
    (runMatch 0 reqS poolS 80 10 orcNone).2.length = 10 ∧
    ((runMatch 0 reqS poolS 80 10 orcNone).2).Pairwise
      (fun a b => b.universalFitScore ≤ a.universalFitScore) := by
  have hlen : ∀ (runId : ℕ) (req : RequirementsModel) (pool : List CandidateProfile)
      (thr : ℚ) (topN : ℕ) (oracle : Oracle),
      (runMatch runId req pool thr topN oracle).1.length =
        (survivors req pool thr).length := by
    intro runId req pool thr topN oracle
    rw [(runMatch_fst_perm runId req pool thr topN oracle).length_eq, List.length_map]
  refine ⟨?_, ?_, ?_, ?_⟩
  · intro runId req pool thr topN oracle
    exact ⟨runMatch_fst_perm runId req pool thr topN oracle,
      hlen runId req pool thr topN oracle, rfl⟩
  · rw [hlen, survivors_poolS]
    simp
  · rw [show (runMatch 0 reqS poolS 80 10 orcNone).2 =
      (runMatch 0 reqS poolS 80 10 orcNone).1.take 10 from rfl]
    rw [List.length_take, hlen, survivors_poolS]
    simp
  · exact List.Pairwise.sublist (List.take_sublist _ _)
      (runMatch_fst_pairwise_ufs 0 reqS poolS 80 10 orcNone)

end TechBank
